import Mathlib

/-!
Verification of the cachenv interception-and-memoization core.

The Go source is shallowly embedded: pure helpers become Lean functions on
`Nat`/`Int`/`List Nat` (bytes), and the filesystem effects of the Store and
Link Manager become explicit state passing over functional filesystem models.
Machine 32-bit arithmetic in the hash is `Nat` arithmetic reduced `% 2^32`.
-/

/-! ## Bytes of a string

Go's `[]byte(s)` yields the UTF-8 encoding of `s`.  We model strings as the
Lean `String` type and re-implement the UTF-8 encoder over code points. -/

/-- UTF-8 encoding of a single Unicode code point, as a list of byte values. -/
def utf8Bytes (c : Nat) : List Nat :=
  if c < 128 then [c]
  else if c < 2048 then [192 ||| (c >>> 6), 128 ||| (c &&& 63)]
  else if c < 65536 then
    [224 ||| (c >>> 12), 128 ||| ((c >>> 6) &&& 63), 128 ||| (c &&& 63)]
  else
    [240 ||| (c >>> 18), 128 ||| ((c >>> 12) &&& 63),
     128 ||| ((c >>> 6) &&& 63), 128 ||| (c &&& 63)]

/-- The UTF-8 bytes of a string, modelling Go's `[]byte(s)` conversion. -/
def strBytes (s : String) : List Nat :=
  (s.data.map (fun ch => utf8Bytes ch.toNat)).flatten

/-! ## SHA-256

`crypto/sha256.Sum256` from the Go standard library, re-implemented over byte
lists per FIPS 180-4.  All word arithmetic is `Nat` reduced modulo `2 ^ 32`. -/

/-- Right rotation of a 32-bit word. -/
def rotr (x n : Nat) : Nat := ((x >>> n) ||| (x <<< (32 - n))) % 4294967296

/-- Ch function of the SHA-256 compression. -/
def chF (x y z : Nat) : Nat := (x &&& y) ^^^ ((x ^^^ 4294967295) &&& z)

/-- Maj function of the SHA-256 compression. -/
def majF (x y z : Nat) : Nat := (x &&& y) ^^^ (x &&& z) ^^^ (y &&& z)

/-- Big sigma-0 of SHA-256. -/
def bigSigma0 (x : Nat) : Nat := (rotr x 2) ^^^ (rotr x 13) ^^^ (rotr x 22)

/-- Big sigma-1 of SHA-256. -/
def bigSigma1 (x : Nat) : Nat := (rotr x 6) ^^^ (rotr x 11) ^^^ (rotr x 25)

/-- Small sigma-0 of SHA-256. -/
def smallSigma0 (x : Nat) : Nat := (rotr x 7) ^^^ (rotr x 18) ^^^ (x >>> 3)

/-- Small sigma-1 of SHA-256. -/
def smallSigma1 (x : Nat) : Nat := (rotr x 17) ^^^ (rotr x 19) ^^^ (x >>> 10)

/-- The 64 SHA-256 round constants of FIPS 180-4, written in decimal. -/
def sha256K : List Nat :=
  [1116352408, 1899447441, 3049323471, 3921009573, 961987163, 1508970993,
   2453635748, 2870763221, 3624381080, 310598401, 607225278, 1426881987,
   1925078388, 2162078206, 2614888103, 3248222580, 3835390401, 4022224774,
   264347078, 604807628, 770255983, 1249150122, 1555081692, 1996064986,
   2554220882, 2821834349, 2952996808, 3210313671, 3336571891, 3584528711,
   113926993, 338241895, 666307205, 773529912, 1294757372, 1396182291,
   1695183700, 1986661051, 2177026350, 2456956037, 2730485921, 2820302411,
   3259730800, 3345764771, 3516065817, 3600352804, 4094571909, 275423344,
   430227734, 506948616, 659060556, 883997877, 958139571, 1322822218,
   1537002063, 1747873779, 1955562222, 2024104815, 2227730452, 2361852424,
   2428436474, 2756734187, 3204031479, 3329325298]

/-- The eight-word SHA-256 working state. -/
structure Hash8 where
  a : Nat
  b : Nat
  c : Nat
  d : Nat
  e : Nat
  f : Nat
  g : Nat
  h : Nat

/-- SHA-256 initial hash value of FIPS 180-4, written in decimal. -/
def initH : Hash8 :=
  ⟨1779033703, 3144134277, 1013904242, 2773480762,
   1359893119, 2600822924, 528734635, 1541459225⟩

/-- One round of the SHA-256 compression, consuming one (constant, word)
pair. -/
def sha256Step (st : Hash8) (kw : Nat × Nat) : Hash8 :=
  let t1 := (st.h + bigSigma1 st.e + chF st.e st.f st.g + kw.1 + kw.2) % 4294967296
  let t2 := (bigSigma0 st.a + majF st.a st.b st.c) % 4294967296
  ⟨(t1 + t2) % 4294967296, st.a, st.b, st.c,
   (st.d + t1) % 4294967296, st.e, st.f, st.g⟩

/-- Fold the 64 compression rounds over the zipped constant/schedule list. -/
def sha256Rounds : List (Nat × Nat) → Hash8 → Hash8
  | [], st => st
  | kw :: rest, st => sha256Rounds rest (sha256Step st kw)

/-- Extend the 16 message words to 64; the accumulator holds the schedule so
far, most recent word first. -/
def extendSchedule : Nat → List Nat → List Nat
  | 0, acc => acc
  | n + 1, acc =>
    let w := (smallSigma1 (acc.getD 1 0) + acc.getD 6 0 +
              smallSigma0 (acc.getD 14 0) + acc.getD 15 0) % 4294967296
    extendSchedule n (w :: acc)

/-- The 64-word message schedule of a 16-word block. -/
def schedule (block : List Nat) : List Nat :=
  (extendSchedule 48 block.reverse).reverse

/-- Compress one 16-word block into the running hash state. -/
def compress (st : Hash8) (block : List Nat) : Hash8 :=
  let s := sha256Rounds (sha256K.zip (schedule block)) st
  ⟨(st.a + s.a) % 4294967296, (st.b + s.b) % 4294967296,
   (st.c + s.c) % 4294967296, (st.d + s.d) % 4294967296,
   (st.e + s.e) % 4294967296, (st.f + s.f) % 4294967296,
   (st.g + s.g) % 4294967296, (st.h + s.h) % 4294967296⟩

/-- Process `n` consecutive 16-word blocks of the word list. -/
def processBlocks : Nat → List Nat → Hash8 → Hash8
  | 0, _, st => st
  | n + 1, ws, st => processBlocks n (ws.drop 16) (compress st (ws.take 16))

/-- Group a byte list into big-endian 32-bit words, four bytes per word. -/
def bytesToWords : List Nat → List Nat
  | b0 :: b1 :: b2 :: b3 :: rest =>
    (((((b0 <<< 8) ||| b1) <<< 8) ||| b2) <<< 8 ||| b3) :: bytesToWords rest
  | _ => []

/-- The eight big-endian bytes of a 64-bit length. -/
def lenBytes (n : Nat) : List Nat :=
  [(n >>> 56) % 256, (n >>> 48) % 256, (n >>> 40) % 256, (n >>> 32) % 256,
   (n >>> 24) % 256, (n >>> 16) % 256, (n >>> 8) % 256, n % 256]

/-- The four big-endian bytes of a 32-bit word. -/
def wordBytes (w : Nat) : List Nat :=
  [(w >>> 24) % 256, (w >>> 16) % 256, (w >>> 8) % 256, w % 256]

/-- SHA-256 padding: a 0x80 byte, zeros to 56 mod 64, then the bit length. -/
def padMessage (msg : List Nat) : List Nat :=
  let len := msg.length
  let zeros := (120 - ((len + 1) % 64)) % 64
  msg ++ 0x80 :: (List.replicate zeros 0 ++ lenBytes (8 * len))

/-- The SHA-256 digest (32 bytes) of a byte list, modelling
`sha256.Sum256`. -/
def sha256 (msg : List Nat) : List Nat :=
  let ws := bytesToWords (padMessage msg)
  let st := processBlocks (ws.length / 16) ws initH
  wordBytes st.a ++ wordBytes st.b ++ wordBytes st.c ++ wordBytes st.d ++
  wordBytes st.e ++ wordBytes st.f ++ wordBytes st.g ++ wordBytes st.h

/-! ## Hex encoding

Go's `fmt.Sprintf("%x", h[:])` prints each byte as two lowercase hex
digits. -/

/-- Lowercase hexadecimal digit for a value below 16. -/
def hexDigitChar (n : Nat) : Char :=
  if n < 10 then Char.ofNat (48 + n) else Char.ofNat (87 + n)

/-- Lowercase hex string of a byte list, two digits per byte. -/
def hexEncode (bs : List Nat) : String :=
  String.mk ((bs.map (fun b => [hexDigitChar (b / 16), hexDigitChar (b % 16)])).flatten)

/-! ## Key derivation

From `src/unnamed/part_003` lines 21 to 27 (`KeyFrom`). -/

/-- Join a list of strings with a separator, modelling Go's `strings.Join`:
empty list gives the empty string, and the separator appears only between
consecutive elements. -/
def stringsJoin : List String → String → String
  | [], _ => ""
  | [e], _ => e
  | e :: rest, sep => e ++ sep ++ stringsJoin rest sep

/-- Cache keys carry the hex digest, as in the Go `CacheKey` struct. -/
structure CacheKey where
  Hash : String
deriving DecidableEq

/-- Key derivation from `part_003`: hash of
`command + " " + strings.Join(args, " ")`. -/
def KeyFrom (command : String) (args : List String) : CacheKey :=
  ⟨hexEncode (sha256 (strBytes (command ++ " " ++ stringsJoin args " ")))⟩

example : hexEncode (sha256 (strBytes "abc")) =
    "ba7816bf8f01cfea414140de5dae2223b00361a396177a9cb410ff61f20015ad" := by
  decide

/-! ## Decimal rendering and parsing of exit codes

`WriteToCache` stores the exit code as `[]byte(fmt.Sprint(exitCode))`;
`ReadFromCache` recovers it with `strconv.Atoi`.  Both are modelled on byte
lists: ASCII digits, with 45 as the minus sign and 43 as the plus sign. -/

/-- Big-endian decimal digits of a natural number; zero renders as `[0]`. -/
def natDigits (n : Nat) : List Nat :=
  if n = 0 then [0] else (Nat.digits 10 n).reverse

/-- ASCII bytes of the decimal digits of a natural number. -/
def natDigitBytes (n : Nat) : List Nat := (natDigits n).map (fun d => 48 + d)

/-- ASCII decimal rendering of an integer, modelling `fmt.Sprint` on `int`:
an optional minus sign followed by the digits. -/
def intRender : Int → List Nat
  | .ofNat n => natDigitBytes n
  | .negSucc n => 45 :: natDigitBytes (n + 1)

/-- Whether a byte is an ASCII decimal digit. -/
def isDigit (b : Nat) : Bool := 48 ≤ b && b ≤ 57

/-- Accumulating parser for a run of ASCII digits; fails on any non-digit. -/
def parseDigitsAux : List Nat → Nat → Option Nat
  | [], acc => some acc
  | b :: rest, acc =>
    if isDigit b then parseDigitsAux rest (acc * 10 + (b - 48)) else none

/-- Parse a nonempty, all-digit byte sequence as a natural number. -/
def parseDigits : List Nat → Option Nat
  | [] => none
  | bs => parseDigitsAux bs 0

/-- Integer parsing modelling `strconv.Atoi`: an optional sign byte followed
by at least one ASCII digit; anything else is a parse error. -/
def atoi (bs : List Nat) : Option Int :=
  match bs with
  | [] => none
  | b :: rest =>
    if b = 43 then (parseDigits rest).map (fun n => (n : Int))
    else if b = 45 then (parseDigits rest).map (fun n => -(n : Int))
    else (parseDigits (b :: rest)).map (fun n => (n : Int))

lemma parseDigitsAux_digits : ∀ (ds : List Nat), (∀ d ∈ ds, d < 10) →
    ∀ acc, parseDigitsAux (ds.map (fun d => 48 + d)) acc =
      some (ds.foldl (fun a d => a * 10 + d) acc)
  | [], _, acc => rfl
  | d :: ds, hd, acc => by
    have hdlt : d < 10 := hd d (List.mem_cons_self ..)
    have hdig : isDigit (48 + d) = true := by
      simp only [isDigit, Bool.and_eq_true, decide_eq_true_eq]
      omega
    have h48 : 48 + d - 48 = d := by omega
    simp only [List.map_cons, parseDigitsAux, hdig, if_true, h48, List.foldl_cons]
    exact parseDigitsAux_digits ds (fun x hx => hd x (List.mem_cons_of_mem _ hx)) _

lemma foldr_eq_ofDigits : ∀ (l : List Nat),
    l.foldr (fun d a => a * 10 + d) 0 = Nat.ofDigits 10 l
  | [] => by simp [Nat.ofDigits]
  | d :: l => by
    simp only [List.foldr_cons, foldr_eq_ofDigits l, Nat.ofDigits_cons]
    ring

lemma natDigits_foldl (n : Nat) :
    (natDigits n).foldl (fun a d => a * 10 + d) 0 = n := by
  unfold natDigits
  by_cases h : n = 0
  · simp [h]
  · rw [if_neg h, List.foldl_reverse]
    have := foldr_eq_ofDigits (Nat.digits 10 n)
    simpa [this] using Nat.ofDigits_digits 10 n

lemma natDigits_lt (n : Nat) : ∀ d ∈ natDigits n, d < 10 := by
  unfold natDigits
  by_cases h : n = 0
  · simp [h]
  · rw [if_neg h]
    intro d hd
    exact Nat.digits_lt_base (by norm_num) (List.mem_reverse.mp hd)

lemma natDigits_ne_nil (n : Nat) : natDigits n ≠ [] := by
  unfold natDigits
  by_cases h : n = 0
  · simp [h]
  · rw [if_neg h]
    simpa using Nat.digits_ne_nil_iff_ne_zero.mpr h

lemma parseDigits_cons (b : Nat) (bs : List Nat) :
    parseDigits (b :: bs) = parseDigitsAux (b :: bs) 0 := rfl

lemma parseDigits_natDigitBytes (n : Nat) :
    parseDigits (natDigitBytes n) = some n := by
  obtain ⟨d, ds, hcons⟩ : ∃ d ds, natDigits n = d :: ds := by
    cases hnd : natDigits n with
    | nil => exact absurd hnd (natDigits_ne_nil n)
    | cons d ds => exact ⟨d, ds, rfl⟩
  have haux := parseDigitsAux_digits (natDigits n) (natDigits_lt n) 0
  have hfold := natDigits_foldl n
  have hb : natDigitBytes n = (48 + d) :: ds.map (fun x => 48 + x) := by
    simp [natDigitBytes, hcons]
  rw [hb, parseDigits_cons]
  have hmap : (48 + d) :: ds.map (fun x => 48 + x) =
      (natDigits n).map (fun x => 48 + x) := by
    simp [hcons]
  rw [hmap, haux, hfold]

lemma atoi_intRender (i : Int) : atoi (intRender i) = some i := by
  cases i with
  | ofNat n =>
    obtain ⟨d, ds, hcons⟩ : ∃ d ds, natDigits n = d :: ds := by
      cases hnd : natDigits n with
      | nil => exact absurd hnd (natDigits_ne_nil n)
      | cons d ds => exact ⟨d, ds, rfl⟩
    have hdlt : d < 10 := natDigits_lt n d (by rw [hcons]; exact List.mem_cons_self ..)
    have hbytes : intRender (.ofNat n) = (48 + d) :: ds.map (fun x => 48 + x) := by
      simp [intRender, natDigitBytes, hcons]
    rw [hbytes]
    have h43 : ¬(48 + d = 43) := by omega
    have h45 : ¬(48 + d = 45) := by omega
    simp only [atoi, if_neg h43, if_neg h45]
    have : (48 + d) :: ds.map (fun x => 48 + x) = natDigitBytes n := by
      simp [natDigitBytes, hcons]
    rw [this, parseDigits_natDigitBytes]
    rfl
  | negSucc n =>
    have h43 : ¬((45 : Nat) = 43) := by omega
    simp only [intRender, atoi, if_neg h43, if_pos rfl, parseDigits_natDigitBytes]
    simp [Int.negSucc_eq]

/-! ## Filesystem model

Paths are lists of components, so `filepath.Join(a, b)` is `a ++ [b]`.  The
filesystem carries the set of existing directories, the file contents, and a
per-path writability predicate used to model injected I/O failures of
`os.MkdirAll` and `os.WriteFile`. -/

/-- A path is its list of components. -/
abbrev FPath := List String

/-- Functional filesystem state for the Store. -/
structure FS where
  dirs : FPath → Bool
  files : FPath → Option (List Nat)
  writable : FPath → Bool

/-- Models `os.MkdirAll`: registers the directory, or fails when the path is
not writable.  Returns the resulting state and a success flag (Go's
`err == nil`). -/
def MkdirAll (fs : FS) (dir : FPath) : FS × Bool :=
  if fs.writable dir then
    ({ fs with dirs := fun d => if d = dir then true else fs.dirs d }, true)
  else (fs, false)

/-- Models `os.WriteFile`: stores the content, or fails when the path is not
writable. -/
def WriteFile (fs : FS) (path : FPath) (content : List Nat) : FS × Bool :=
  if fs.writable path then
    ({ fs with files := fun p => if p = path then some content else fs.files p }, true)
  else (fs, false)

/-! ## The Store

From `src/unnamed/part_003` (current revision).  `Store.Dir` is the data
directory path. -/

/-- Captured execution result, as in the Go `ExecResult` struct. -/
structure ExecResult where
  Stdout : List Nat
  Stderr : List Nat
  ExitCode : Int
deriving DecidableEq

/-- The Store as in `part_003`: just its data directory. -/
structure Store where
  Dir : FPath

/-- Directory of one cache entry: `filepath.Join(s.Dir, key.Hash)`. -/
def Store.KeyDir (s : Store) (key : CacheKey) : FPath := s.Dir ++ [key.Hash]

/-- Path of the stored stdout artifact. -/
def Store.stdoutPath (s : Store) (key : CacheKey) : FPath := s.KeyDir key ++ ["out"]

/-- Path of the stored stderr artifact. -/
def Store.stderrPath (s : Store) (key : CacheKey) : FPath := s.KeyDir key ++ ["err"]

/-- Path of the stored exit-code artifact. -/
def Store.exitcodePath (s : Store) (key : CacheKey) : FPath := s.KeyDir key ++ ["status"]

/-- Models `Store.Exists`: `os.Stat` on the key directory, true unless the
stat reports not-exist. -/
def Store.Exists (s : Store) (fs : FS) (key : CacheKey) : Bool :=
  fs.dirs (s.KeyDir key)

/-- Models `Store.WriteToCache` from `part_003` lines 50 to 67: MkdirAll on
the key directory, then write stdout, stderr, and the decimal exit code,
returning early (flag `false`) on the first failure.  Partial writes
persist, as on a real filesystem. -/
def Store.WriteToCache (s : Store) (fs : FS) (key : CacheKey) (result : ExecResult) :
    FS × Bool :=
  match MkdirAll fs (s.KeyDir key) with
  | (fs1, false) => (fs1, false)
  | (fs1, true) =>
    match WriteFile fs1 (s.stdoutPath key) result.Stdout with
    | (fs2, false) => (fs2, false)
    | (fs2, true) =>
      match WriteFile fs2 (s.stderrPath key) result.Stderr with
      | (fs3, false) => (fs3, false)
      | (fs3, true) => WriteFile fs3 (s.exitcodePath key) (intRender result.ExitCode)

/-- Models `Store.ReadFromCache` from `part_003` lines 69 to 91: read the
three artifacts, failing (`none`) when any is absent; then parse the exit
code with `strconv.Atoi`.  NOTE, faithful to the source: the `Atoi` error is
assigned but the function returns a nil error regardless, so a parse failure
yields a successful read with exit code 0 (Go's `Atoi` zero value). -/
def Store.ReadFromCache (s : Store) (fs : FS) (key : CacheKey) : Option ExecResult :=
  match fs.files (s.stdoutPath key) with
  | none => none
  | some stdout =>
    match fs.files (s.stderrPath key) with
    | none => none
    | some stderr =>
      match fs.files (s.exitcodePath key) with
      | none => none
      | some exitCodeBytes => some ⟨stdout, stderr, (atoi exitCodeBytes).getD 0⟩

/-- Models `Store.ReadFromCache` from `src/store.go` lines 60 to 75 (the
earlier revision), whose named `err` return propagates the `Atoi` error, so
a parse failure fails the read. -/
def Store.ReadFromCacheEarlier (s : Store) (fs : FS) (key : CacheKey) :
    Option ExecResult :=
  match fs.files (s.stdoutPath key) with
  | none => none
  | some stdout =>
    match fs.files (s.stderrPath key) with
    | none => none
    | some stderr =>
      match fs.files (s.exitcodePath key) with
      | none => none
      | some exitCodeBytes =>
        match atoi exitCodeBytes with
        | none => none
        | some exitCode => some ⟨stdout, stderr, exitCode⟩

/-! ## The execution dispatcher

From `src/unnamed/part_001`.  Running the real program is abstracted by a
`RunOutcome` oracle standing for `cmd.Run()` on the real-target link. -/

/-- Outcome of attempting to run the real program: either it started and
exited (normally or not; `exec.ExitError` yields the non-zero code), or it
could not start at all (binary missing, permission denied). -/
inductive RunOutcome where
  | exited (stdout stderr : List Nat) (exitCode : Int)
  | startFailure

/-- Models `Cachenv.ExecuteRealCommand` (`part_001` lines 364 to 389): a
process that ran returns its captured result (any exit code); a failure to
even start returns an error. -/
def ExecuteRealCommand : RunOutcome → Option ExecResult
  | .exited stdout stderr exitCode => some ⟨stdout, stderr, exitCode⟩
  | .startFailure => none

/-- Observable outcome of one intercepted invocation: the bytes printed to
the real stdout and stderr, the diagnostic messages printed, the returned
exit code, whether execution of the real program was attempted, and the
resulting filesystem. -/
structure DispatchOut where
  out : List Nat
  err : List Nat
  diags : List String
  exit : Int
  spawned : Bool
  fs : FS

/-- Models `Cachenv.HandleMemoizedCommand` (`part_001` lines 391 to 419):
derive the key; on a store hit replay the entry (read failure returns 1); on
a miss run the real program (dispatch failure returns 1), write the result
to the store (write failure returns 1), and finally print the result's
stdout and stderr and return its exit code. -/
def HandleMemoizedCommand (s : Store) (fs : FS) (oracle : RunOutcome)
    (cmd : String) (args : List String) : DispatchOut :=
  let key := KeyFrom cmd args
  if Store.Exists s fs key then
    match Store.ReadFromCache s fs key with
    | none => ⟨[], [], ["Failed to read from cache"], 1, false, fs⟩
    | some result => ⟨result.Stdout, result.Stderr, [], result.ExitCode, false, fs⟩
  else
    match ExecuteRealCommand oracle with
    | none => ⟨[], [], ["Error executing command"], 1, true, fs⟩
    | some result =>
      match Store.WriteToCache s fs key result with
      | (fs', false) => ⟨[], [], ["Failed to write to cache"], 1, true, fs'⟩
      | (fs', true) => ⟨result.Stdout, result.Stderr, [], result.ExitCode, true, fs'⟩

/-! ## Helper lemmas about the Store and the dispatcher -/

lemma append_singleton_ne (l : List String) {a b : String} (h : a ≠ b) :
    l ++ [a] ≠ l ++ [b] := by
  intro he
  exact h (by simpa using he)

lemma stdoutPath_ne_stderrPath (s : Store) (key : CacheKey) :
    s.stdoutPath key ≠ s.stderrPath key :=
  append_singleton_ne _ (by decide)

lemma stdoutPath_ne_exitcodePath (s : Store) (key : CacheKey) :
    s.stdoutPath key ≠ s.exitcodePath key :=
  append_singleton_ne _ (by decide)

lemma stderrPath_ne_exitcodePath (s : Store) (key : CacheKey) :
    s.stderrPath key ≠ s.exitcodePath key :=
  append_singleton_ne _ (by decide)

/-- A successful write: all four filesystem operations succeed on a fully
writable filesystem, the key directory then exists, and reading back
returns exactly the written result. -/
lemma writeToCache_spec (s : Store) (fs : FS) (key : CacheKey) (r : ExecResult)
    (hw : ∀ p, fs.writable p = true) :
    (s.WriteToCache fs key r).2 = true ∧
    Store.Exists s (s.WriteToCache fs key r).1 key = true ∧
    Store.ReadFromCache s (s.WriteToCache fs key r).1 key = some r := by
  have hos := stdoutPath_ne_stderrPath s key
  have hoe := stdoutPath_ne_exitcodePath s key
  have hes := stderrPath_ne_exitcodePath s key
  refine ⟨?_, ?_, ?_⟩
  · simp [Store.WriteToCache, MkdirAll, WriteFile, hw]
  · simp [Store.WriteToCache, MkdirAll, WriteFile, Store.Exists, hw]
  · simp only [Store.WriteToCache, MkdirAll, WriteFile, hw, if_true]
    simp [Store.ReadFromCache, hos, hoe, hes, atoi_intRender]

/-- On a hit whose read succeeds, the dispatcher replays the entry: no
diagnostics, no execution attempt, filesystem unchanged. -/
lemma handle_hit (s : Store) (fs : FS) (oracle : RunOutcome) (cmd : String)
    (args : List String) (r : ExecResult)
    (hex : Store.Exists s fs (KeyFrom cmd args) = true)
    (hread : Store.ReadFromCache s fs (KeyFrom cmd args) = some r) :
    HandleMemoizedCommand s fs oracle cmd args =
      ⟨r.Stdout, r.Stderr, [], r.ExitCode, false, fs⟩ := by
  simp [HandleMemoizedCommand, hex, hread]

/-- On a miss where the program runs and the store write succeeds, the
dispatcher delivers the captured result and returns its exit code. -/
lemma handle_miss_write_ok (s : Store) (fs : FS) (cmd : String)
    (args : List String) (out err : List Nat) (code : Int)
    (hex : Store.Exists s fs (KeyFrom cmd args) = false)
    (hwr : (Store.WriteToCache s fs (KeyFrom cmd args) ⟨out, err, code⟩).2 = true) :
    HandleMemoizedCommand s fs (.exited out err code) cmd args =
      ⟨out, err, [], code, true,
       (Store.WriteToCache s fs (KeyFrom cmd args) ⟨out, err, code⟩).1⟩ := by
  cases hpair : Store.WriteToCache s fs (KeyFrom cmd args) ⟨out, err, code⟩ with
  | mk fs' b =>
    rw [hpair] at hwr
    simp only at hwr
    subst hwr
    simp [HandleMemoizedCommand, hex, ExecuteRealCommand, hpair]

/-- On a miss where the program runs but the store write fails, the
dispatcher reports the failure and returns 1, discarding the result. -/
lemma handle_miss_write_fail (s : Store) (fs : FS) (cmd : String)
    (args : List String) (out err : List Nat) (code : Int)
    (hex : Store.Exists s fs (KeyFrom cmd args) = false)
    (hwr : (Store.WriteToCache s fs (KeyFrom cmd args) ⟨out, err, code⟩).2 = false) :
    HandleMemoizedCommand s fs (.exited out err code) cmd args =
      ⟨[], [], ["Failed to write to cache"], 1, true,
       (Store.WriteToCache s fs (KeyFrom cmd args) ⟨out, err, code⟩).1⟩ := by
  cases hpair : Store.WriteToCache s fs (KeyFrom cmd args) ⟨out, err, code⟩ with
  | mk fs' b =>
    rw [hpair] at hwr
    simp only at hwr
    subst hwr
    simp [HandleMemoizedCommand, hex, ExecuteRealCommand, hpair]

/-- On a miss where the program cannot start, the dispatcher reports the
dispatch error, returns 1, and leaves the filesystem untouched. -/
lemma handle_miss_startfail (s : Store) (fs : FS) (cmd : String)
    (args : List String)
    (hex : Store.Exists s fs (KeyFrom cmd args) = false) :
    HandleMemoizedCommand s fs .startFailure cmd args =
      ⟨[], [], ["Error executing command"], 1, true, fs⟩ := by
  simp [HandleMemoizedCommand, hex, ExecuteRealCommand]

/-! ## Link manager

From `src/unnamed/part_001`.  The two link directories are association
lists from entry name to symlink target; `exec.LookPath` is the `lookPath`
oracle.  The registration set is the list of configured command names in
the (arbitrary) iteration order of the Go map. -/

/-- A link directory: entry name to symlink target (target as a path). -/
abbrev LinkDir := List (String × List String)

/-- Lookup of a directory entry by name. -/
def alGet : LinkDir → String → Option (List String)
  | [], _ => none
  | (k, v) :: rest, n => if n = k then some v else alGet rest n

/-- Removal of a directory entry by name (`os.Remove` after `os.Lstat`). -/
def alRemove : LinkDir → String → LinkDir
  | [], _ => []
  | (k, v) :: rest, n => if k = n then alRemove rest n else (k, v) :: alRemove rest n

/-- Models `os.Symlink`: fails (`none`) when the name already exists. -/
def symlinkAL (l : LinkDir) (k : String) (v : List String) : Option LinkDir :=
  match alGet l k with
  | some _ => none
  | none => some ((k, v) :: l)

/-- The two link directories of an environment. -/
structure LinkFS where
  inPath : LinkDir
  toReal : LinkDir
deriving DecidableEq

/-- Relative interception-link target `../links-to-real/<name>`, from
`Cachenv.LinkToRealRelative`. -/
def LinkToRealRelative (cmdName : String) : List String :=
  ["..", "links-to-real", cmdName]

/-- Models `Cachenv.RefreshLinksFor` (`part_001` lines 154 to 190): remove
both existing links for the command, resolve the real path via `lookPath`,
then create the real-target link and the relative interception link, in
that order.  On failure the removals have already happened, as in the
source; the flag is Go's `err == nil`. -/
def RefreshLinksFor (lookPath : String → Option (List String)) (fs : LinkFS)
    (cmd : String) : LinkFS × Bool :=
  let fs1 : LinkFS := ⟨alRemove fs.inPath cmd, alRemove fs.toReal cmd⟩
  match lookPath cmd with
  | none => (fs1, false)
  | some realPath =>
    match symlinkAL fs1.toReal cmd realPath with
    | none => (fs1, false)
    | some toReal2 =>
      match symlinkAL fs1.inPath cmd (LinkToRealRelative "cachenv") with
      | none => (⟨fs1.inPath, toReal2⟩, false)
      | some inPath2 => (⟨inPath2, toReal2⟩, true)

/-- The refresh loop of `RefreshLinksForAll`: refresh each registered
command in order, returning on the first failure as the Go loop does. -/
def refreshLoop (lookPath : String → Option (List String)) :
    List String → LinkFS → LinkFS × Bool
  | [], fs => (fs, true)
  | c :: cs, fs =>
    match RefreshLinksFor lookPath fs c with
    | (fs1, false) => (fs1, false)
    | (fs1, true) => refreshLoop lookPath cs fs1

/-- The pruning pass of `RefreshLinksForAll`: remove every interception-dir
entry that is not registered, skipping the `cachenv` entry. -/
def pruneOrphans (commands : List String) : LinkDir → LinkDir
  | [] => []
  | (k, v) :: rest =>
    if k ∈ commands ∨ k = "cachenv" then (k, v) :: pruneOrphans commands rest
    else pruneOrphans commands rest

/-- Models `Cachenv.RefreshLinksForAll` (`part_001` lines 192 to 224):
refresh every registered command, aborting on the first failure; only on
success reconcile the interception directory against the registration
set. -/
def RefreshLinksForAll (lookPath : String → Option (List String))
    (commands : List String) (fs : LinkFS) : LinkFS × Bool :=
  match refreshLoop lookPath commands fs with
  | (fs1, false) => (fs1, false)
  | (fs1, true) => (⟨pruneOrphans commands fs1.inPath, fs1.toReal⟩, true)

/-! ## Helper lemmas about the link manager -/

lemma alGet_alRemove_self (l : LinkDir) (n : String) :
    alGet (alRemove l n) n = none := by
  induction l with
  | nil => rfl
  | cons e rest ih =>
    obtain ⟨k, v⟩ := e
    by_cases hk : k = n
    · simp [alRemove, hk, ih]
    · simp [alRemove, alGet, hk, Ne.symm hk, ih]

lemma alGet_alRemove_ne (l : LinkDir) {n m : String} (h : m ≠ n) :
    alGet (alRemove l n) m = alGet l m := by
  induction l with
  | nil => rfl
  | cons e rest ih =>
    obtain ⟨k, v⟩ := e
    by_cases hk : k = n
    · subst hk
      simp [alRemove, alGet, h, ih]
    · by_cases hm : m = k
      · subst hm
        simp [alRemove, alGet, hk]
      · simp [alRemove, alGet, hk, hm, ih]

lemma alGet_pruneOrphans (commands : List String) (l : LinkDir) (n : String) :
    alGet (pruneOrphans commands l) n =
      if n ∈ commands ∨ n = "cachenv" then alGet l n else none := by
  induction l with
  | nil => simp [pruneOrphans, alGet]
  | cons e rest ih =>
    obtain ⟨k, v⟩ := e
    by_cases hk : k ∈ commands ∨ k = "cachenv"
    · by_cases hnk : n = k
      · subst hnk
        simp [pruneOrphans, if_pos hk, alGet, hk]
      · simp [pruneOrphans, if_pos hk, alGet, hnk, ih]
    · by_cases hnk : n = k
      · subst hnk
        simp [pruneOrphans, if_neg hk, alGet, hk, ih]
      · simp [pruneOrphans, if_neg hk, alGet, hnk, ih]

lemma refreshFor_ok_get (lookPath : String → Option (List String)) (fs : LinkFS)
    (cmd : String) (fs' : LinkFS)
    (h : RefreshLinksFor lookPath fs cmd = (fs', true)) :
    alGet fs'.inPath cmd = some (LinkToRealRelative "cachenv") := by
  simp only [RefreshLinksFor, symlinkAL, alGet_alRemove_self] at h
  cases hlp : lookPath cmd with
  | none =>
    rw [hlp] at h
    simp at h
  | some realPath =>
    rw [hlp] at h
    simp only [Prod.mk.injEq] at h
    obtain ⟨h1, -⟩ := h
    rw [← h1]
    simp [alGet]

lemma refreshFor_preserves (lookPath : String → Option (List String))
    (fs : LinkFS) (cmd : String) (fs' : LinkFS) (b : Bool) {n : String}
    (hn : n ≠ cmd) (h : RefreshLinksFor lookPath fs cmd = (fs', b)) :
    alGet fs'.inPath n = alGet fs.inPath n := by
  simp only [RefreshLinksFor, symlinkAL, alGet_alRemove_self] at h
  cases hlp : lookPath cmd with
  | none =>
    rw [hlp] at h
    simp only [Prod.mk.injEq] at h
    obtain ⟨h1, -⟩ := h
    rw [← h1]
    exact alGet_alRemove_ne fs.inPath hn
  | some realPath =>
    rw [hlp] at h
    simp only [Prod.mk.injEq] at h
    obtain ⟨h1, -⟩ := h
    rw [← h1]
    simp only [alGet, if_neg hn]
    exact alGet_alRemove_ne fs.inPath hn

lemma refreshLoop_ok (lookPath : String → Option (List String)) :
    ∀ (cs : List String) (fs fs' : LinkFS),
    refreshLoop lookPath cs fs = (fs', true) →
    (∀ c ∈ cs, alGet fs'.inPath c = some (LinkToRealRelative "cachenv")) ∧
    (∀ n, n ∉ cs → alGet fs'.inPath n = alGet fs.inPath n) := by
  intro cs
  induction cs with
  | nil =>
    intro fs fs' h
    simp only [refreshLoop, Prod.mk.injEq] at h
    obtain ⟨rfl, -⟩ := h
    exact ⟨by simp, fun n _ => rfl⟩
  | cons c cs ih =>
    intro fs fs' h
    simp only [refreshLoop] at h
    cases hr : RefreshLinksFor lookPath fs c with
    | mk fs1 b =>
      rw [hr] at h
      cases b with
      | false => simp at h
      | true =>
        simp only at h
        obtain ⟨h1, h2⟩ := ih fs1 fs' h
        constructor
        · intro x hx
          rcases List.mem_cons.mp hx with rfl | hx'
          · by_cases hxcs : x ∈ cs
            · exact h1 x hxcs
            · rw [h2 x hxcs]
              exact refreshFor_ok_get lookPath fs x fs1 hr
          · exact h1 x hx'
        · intro n hn
          have hnc : n ≠ c := fun hh => hn (hh ▸ List.mem_cons_self ..)
          have hncs : n ∉ cs := fun hh => hn (List.mem_cons_of_mem _ hh)
          rw [h2 n hncs]
          exact refreshFor_preserves lookPath fs c fs1 true hnc hr

/-! ## Claim theorems -/

/-- C1: for every key whose entry exists in the Store and reads
successfully, the intercepted-mode dispatcher emits the stored stdout bytes
to the real standard-output stream, the stored stderr bytes to the real
standard-error stream, and terminates with the stored exit code, without
attempting to run the real program and leaving the filesystem unchanged;
moreover, after a first miss invocation that executed the real program and
cached its result, a second identical invocation replays byte-identical
stdout, stderr and exit code without attempting execution. -/
theorem hit_replays_without_spawning :
    (∀ (s : Store) (fs : FS) (oracle : RunOutcome) (cmd : String)
        (args : List String) (r : ExecResult),
      Store.Exists s fs (KeyFrom cmd args) = true →
      Store.ReadFromCache s fs (KeyFrom cmd args) = some r →
      HandleMemoizedCommand s fs oracle cmd args =
        ⟨r.Stdout, r.Stderr, [], r.ExitCode, false, fs⟩) ∧
    (∀ (s : Store) (fs : FS) (cmd : String) (args : List String)
        (out err : List Nat) (code : Int) (oracle2 : RunOutcome)
        (d1 d2 : DispatchOut),
      Store.Exists s fs (KeyFrom cmd args) = false →
      (∀ p, fs.writable p = true) →
      d1 = HandleMemoizedCommand s fs (.exited out err code) cmd args →
      d2 = HandleMemoizedCommand s d1.fs oracle2 cmd args →
      d2.out = d1.out ∧ d2.err = d1.err ∧ d2.exit = d1.exit ∧
        d2.spawned = false) := by
  constructor
  · intro s fs oracle cmd args r hex hread
    exact handle_hit s fs oracle cmd args r hex hread
  · intro s fs cmd args out err code oracle2 d1 d2 hex hw hd1 hd2
    obtain ⟨hwr, hex2, hread2⟩ :=
      writeToCache_spec s fs (KeyFrom cmd args) ⟨out, err, code⟩ hw
    have h1 := handle_miss_write_ok s fs cmd args out err code hex hwr
    subst hd1 hd2
    rw [h1]
    dsimp only
    rw [handle_hit s _ oracle2 cmd args ⟨out, err, code⟩ hex2 hread2]
    exact ⟨rfl, rfl, rfl, rfl⟩

/-- Witness for C1: a concrete environment in which a previous write cached
the result `(stdout [104], stderr [101], exit 0)`; replay emits exactly
that result without attempting execution (the oracle here would fail to
start, which the hit path never consults). -/
theorem hit_replays_without_spawning_witness :
    HandleMemoizedCommand ⟨["data"]⟩
      ((Store.WriteToCache ⟨["data"]⟩ ⟨fun _ => false, fun _ => none, fun _ => true⟩
          (KeyFrom "ls" []) ⟨[104], [101], 0⟩).1)
      .startFailure "ls" [] =
      ⟨[104], [101], [], 0, false,
       (Store.WriteToCache ⟨["data"]⟩ ⟨fun _ => false, fun _ => none, fun _ => true⟩
          (KeyFrom "ls" []) ⟨[104], [101], 0⟩).1⟩ := by
  obtain ⟨-, hex, hread⟩ :=
    writeToCache_spec ⟨["data"]⟩ ⟨fun _ => false, fun _ => none, fun _ => true⟩
      (KeyFrom "ls" []) ⟨[104], [101], 0⟩ (fun _ => rfl)
  exact hit_replays_without_spawning.1 _ _ _ "ls" [] ⟨[104], [101], 0⟩ hex hread

/-- C2: on a writable filesystem where the key was never written, `exists`
is false; after one `write` the write succeeds, `exists` is true, and
`read` returns exactly the written result. -/
theorem store_write_read_roundtrip (s : Store) (fs : FS) (key : CacheKey)
    (r : ExecResult) (hw : ∀ p, fs.writable p = true)
    (hnever : fs.dirs (s.KeyDir key) = false) :
    Store.Exists s fs key = false ∧
    (s.WriteToCache fs key r).2 = true ∧
    Store.Exists s (s.WriteToCache fs key r).1 key = true ∧
    Store.ReadFromCache s (s.WriteToCache fs key r).1 key = some r := by
  obtain ⟨h1, h2, h3⟩ := writeToCache_spec s fs key r hw
  exact ⟨hnever, h1, h2, h3⟩

/-- Witness for C2: a concrete key and result (with a negative exit code)
round-trips through the store on an initially empty, writable
filesystem. -/
theorem store_write_read_roundtrip_witness :
    Store.Exists ⟨["data"]⟩ ⟨fun _ => false, fun _ => none, fun _ => true⟩ ⟨"k"⟩ = false ∧
    Store.ReadFromCache ⟨["data"]⟩
      ((Store.WriteToCache ⟨["data"]⟩ ⟨fun _ => false, fun _ => none, fun _ => true⟩
          ⟨"k"⟩ ⟨[1, 2], [3], -7⟩).1) ⟨"k"⟩ = some ⟨[1, 2], [3], -7⟩ := by
  obtain ⟨h0, -, -, h3⟩ :=
    store_write_read_roundtrip ⟨["data"]⟩ ⟨fun _ => false, fun _ => none, fun _ => true⟩
      ⟨"k"⟩ ⟨[1, 2], [3], -7⟩ (fun _ => rfl) rfl
  exact ⟨h0, h3⟩

/-- C4 as stated is false at a concrete input: on a miss with an unwritable
store, the program ran and produced stdout `[104, 105]` with exit code 0,
yet the dispatcher emits nothing, reports the write failure, and returns 1
instead of the observed exit code. -/
theorem write_failure_counterexample :
    (HandleMemoizedCommand ⟨["data"]⟩ ⟨fun _ => false, fun _ => none, fun _ => false⟩
        (.exited [104, 105] [] 0) "ls" []).out ≠ [104, 105] ∧
    (HandleMemoizedCommand ⟨["data"]⟩ ⟨fun _ => false, fun _ => none, fun _ => false⟩
        (.exited [104, 105] [] 0) "ls" []).exit ≠ 0 ∧
    (HandleMemoizedCommand ⟨["data"]⟩ ⟨fun _ => false, fun _ => none, fun _ => false⟩
        (.exited [104, 105] [] 0) "ls" []).diags = ["Failed to write to cache"] := by
  refine ⟨?_, ?_, rfl⟩ <;> decide

/-- C4 amended: on a cache miss where the real program ran but the Store
write fails, the dispatcher reports the failure and exits with code 1,
discarding the captured stdout, stderr, and exit code (the just-executed
result is not delivered to the caller). -/
theorem write_failure_reports_and_discards (s : Store) (fs : FS) (cmd : String)
    (args : List String) (out err : List Nat) (code : Int)
    (hex : Store.Exists s fs (KeyFrom cmd args) = false)
    (hwr : (Store.WriteToCache s fs (KeyFrom cmd args) ⟨out, err, code⟩).2 = false) :
    HandleMemoizedCommand s fs (.exited out err code) cmd args =
      ⟨[], [], ["Failed to write to cache"], 1, true,
       (Store.WriteToCache s fs (KeyFrom cmd args) ⟨out, err, code⟩).1⟩ :=
  handle_miss_write_fail s fs cmd args out err code hex hwr

/-- Witness for the amended C4: the concrete unwritable-store dispatch. -/
theorem write_failure_reports_and_discards_witness :
    HandleMemoizedCommand ⟨["data"]⟩ ⟨fun _ => false, fun _ => none, fun _ => false⟩
        (.exited [104, 105] [] 0) "ls" [] =
      ⟨[], [], ["Failed to write to cache"], 1, true,
       (Store.WriteToCache ⟨["data"]⟩ ⟨fun _ => false, fun _ => none, fun _ => false⟩
          (KeyFrom "ls" []) ⟨[104, 105], [], 0⟩).1⟩ :=
  write_failure_reports_and_discards ⟨["data"]⟩
    ⟨fun _ => false, fun _ => none, fun _ => false⟩ "ls" [] [104, 105] [] 0 rfl rfl

/-- C5: on a miss, a program that ran and exited (with any code, in
particular non-zero) is a valid result: it is delivered and written to the
Store with that exit code; a program that could not start yields a reported
dispatch error, exit code 1, and no Store write (filesystem unchanged). -/
theorem ran_and_failed_cacheable_start_failure_not :
    (∀ (s : Store) (fs : FS) (cmd : String) (args : List String)
        (out err : List Nat) (code : Int),
      Store.Exists s fs (KeyFrom cmd args) = false →
      (∀ p, fs.writable p = true) →
      (HandleMemoizedCommand s fs (.exited out err code) cmd args).spawned = true ∧
      (HandleMemoizedCommand s fs (.exited out err code) cmd args).out = out ∧
      (HandleMemoizedCommand s fs (.exited out err code) cmd args).err = err ∧
      (HandleMemoizedCommand s fs (.exited out err code) cmd args).exit = code ∧
      Store.ReadFromCache s
        (HandleMemoizedCommand s fs (.exited out err code) cmd args).fs
        (KeyFrom cmd args) = some ⟨out, err, code⟩) ∧
    (∀ (s : Store) (fs : FS) (cmd : String) (args : List String),
      Store.Exists s fs (KeyFrom cmd args) = false →
      HandleMemoizedCommand s fs .startFailure cmd args =
        ⟨[], [], ["Error executing command"], 1, true, fs⟩) := by
  constructor
  · intro s fs cmd args out err code hex hw
    obtain ⟨hwr, -, hread2⟩ :=
      writeToCache_spec s fs (KeyFrom cmd args) ⟨out, err, code⟩ hw
    have h1 := handle_miss_write_ok s fs cmd args out err code hex hwr
    rw [h1]
    exact ⟨rfl, rfl, rfl, rfl, hread2⟩
  · intro s fs cmd args hex
    exact handle_miss_startfail s fs cmd args hex

/-- Witness for C5: a concrete miss with non-zero exit code 3 is delivered
with exit 3, and a concrete start failure leaves the filesystem
untouched with exit 1. -/
theorem ran_and_failed_cacheable_start_failure_not_witness :
    (HandleMemoizedCommand ⟨["data"]⟩ ⟨fun _ => false, fun _ => none, fun _ => true⟩
        (.exited [104] [] 3) "ls" []).exit = 3 ∧
    HandleMemoizedCommand ⟨["data"]⟩ ⟨fun _ => false, fun _ => none, fun _ => true⟩
        .startFailure "ls" [] =
      ⟨[], [], ["Error executing command"], 1, true,
       ⟨fun _ => false, fun _ => none, fun _ => true⟩⟩ :=
  ⟨(ran_and_failed_cacheable_start_failure_not.1 ⟨["data"]⟩
      ⟨fun _ => false, fun _ => none, fun _ => true⟩ "ls" [] [104] [] 3 rfl
      (fun _ => rfl)).2.2.2.1,
   ran_and_failed_cacheable_start_failure_not.2 ⟨["data"]⟩
      ⟨fun _ => false, fun _ => none, fun _ => true⟩ "ls" [] rfl⟩

/-- A store state whose entry for key `k` has stdout and stderr artifacts
present but a status artifact `xy` (bytes 120, 121) that does not parse as
an integer. -/
def corruptEntryFS : FS :=
  ⟨fun _ => true,
   fun p =>
     if p = ["data", "k", "out"] then some []
     else if p = ["data", "k", "err"] then some []
     else if p = ["data", "k", "status"] then some [120, 121]
     else none,
   fun _ => true⟩

/-- C6, failing input: the status text `xy` does not parse as an integer,
yet the current `ReadFromCache` (from `part_003`, which assigns the `Atoi`
error and then returns a nil error) succeeds with exit code 0, while the
earlier revision in `store.go` (which propagates that error, as the claim
and spec describe) fails the read. -/
theorem read_swallows_exitcode_parse_error :
    atoi [120, 121] = none ∧
    Store.ReadFromCache ⟨["data"]⟩ corruptEntryFS ⟨"k"⟩ = some ⟨[], [], 0⟩ ∧
    Store.ReadFromCacheEarlier ⟨["data"]⟩ corruptEntryFS ⟨"k"⟩ = none := by
  decide

/-- The string the words of the spec construction describe, for the C3
refinement comparison: the command name and all the arguments concatenated
with a single separating space (hence no trailing separator when the
argument vector is empty). -/
def specJoinedInvocation (command : String) (args : List String) : String :=
  stringsJoin (command :: args) " "

/-- C3 as stated is false at a concrete input: for an empty argument
vector, the code hashes the command name followed by a trailing space, not
the plain space-joined serialization of the spec's words (`KeyFrom "ls" []`
hashes `ls`-space, the spec-described construction hashes `ls`). -/
theorem keyfrom_spec_counterexample :
    KeyFrom "ls" [] ≠
      ⟨hexEncode (sha256 (strBytes (specJoinedInvocation "ls" [])))⟩ := by
  decide

/-- C3 amended: the derived key is the hex-encoded SHA-256 digest of the
command name, a single space, and the space-joined arguments, where the
space after the command name is appended unconditionally; for a nonempty
argument vector this coincides with the spec's space-joined serialization
of the whole invocation.  The derivation is a pure function of the command
name and arguments: no other data enters the digest. -/
theorem keyfrom_construction (command : String) (args : List String) :
    KeyFrom command args =
      ⟨hexEncode (sha256 (strBytes (command ++ " " ++ stringsJoin args " ")))⟩ ∧
    (args ≠ [] →
      KeyFrom command args =
        ⟨hexEncode (sha256 (strBytes (specJoinedInvocation command args)))⟩) := by
  refine ⟨rfl, ?_⟩
  intro hne
  cases args with
  | nil => exact absurd rfl hne
  | cons a as => rfl

/-- Witness for the amended C3 at a nonempty argument vector. -/
theorem keyfrom_construction_witness :
    KeyFrom "grep" ["a"] =
      ⟨hexEncode (sha256 (strBytes (specJoinedInvocation "grep" ["a"])))⟩ :=
  (keyfrom_construction "grep" ["a"]).2 (by decide)

/-- C7: the distinct invocations `("grep", ["a b"])` and
`("grep", ["a", "b"])` serialize identically under space-joining, so key
derivation collapses them to the same Cache Key (and hence one cache
entry). -/
theorem space_join_collision :
    (["a b"] : List String) ≠ ["a", "b"] ∧
    KeyFrom "grep" ["a b"] = KeyFrom "grep" ["a", "b"] := by
  constructor
  · decide
  · have h : ("grep" ++ " " ++ stringsJoin ["a b"] " ") =
        ("grep" ++ " " ++ stringsJoin ["a", "b"] " ") := by decide
    unfold KeyFrom
    rw [h]

/-- C10: for every command name, the key for an empty argument vector
equals the key for a single empty-string argument, because the separating
space is appended to the command name unconditionally and both joins
produce the empty string. -/
theorem keyfrom_empty_args_eq_empty_string_arg (command : String) :
    KeyFrom command [] = KeyFrom command [""] := rfl

/-- C8: whenever `RefreshLinksForAll` completes successfully, every
interception link whose name is neither registered nor `cachenv` has been
removed; every registered command's interception link is present (with the
relative target the refresh installs); and the `cachenv` link is never
pruned (it is exactly what it was before when `cachenv` is not itself
registered). -/
theorem refresh_all_prunes_orphans (lookPath : String → Option (List String))
    (commands : List String) (fs fsOut : LinkFS)
    (h : RefreshLinksForAll lookPath commands fs = (fsOut, true)) :
    (∀ n, n ∉ commands → n ≠ "cachenv" → alGet fsOut.inPath n = none) ∧
    (∀ n, n ∈ commands →
      alGet fsOut.inPath n = some (LinkToRealRelative "cachenv")) ∧
    ("cachenv" ∉ commands →
      alGet fsOut.inPath "cachenv" = alGet fs.inPath "cachenv") := by
  simp only [RefreshLinksForAll] at h
  cases hl : refreshLoop lookPath commands fs with
  | mk fs1 b =>
    rw [hl] at h
    cases b with
    | false => simp at h
    | true =>
      simp only [Prod.mk.injEq] at h
      obtain ⟨h1, -⟩ := h
      obtain ⟨hreg, hpres⟩ := refreshLoop_ok lookPath commands fs fs1 hl
      refine ⟨?_, ?_, ?_⟩
      · intro n hn hnc
        rw [← h1]
        rw [show (⟨pruneOrphans commands fs1.inPath, fs1.toReal⟩ : LinkFS).inPath =
          pruneOrphans commands fs1.inPath from rfl]
        rw [alGet_pruneOrphans]
        simp [hn, hnc]
      · intro n hn
        rw [← h1]
        rw [show (⟨pruneOrphans commands fs1.inPath, fs1.toReal⟩ : LinkFS).inPath =
          pruneOrphans commands fs1.inPath from rfl]
        rw [alGet_pruneOrphans]
        simp [hn, hreg n hn]
      · intro hcn
        rw [← h1]
        rw [show (⟨pruneOrphans commands fs1.inPath, fs1.toReal⟩ : LinkFS).inPath =
          pruneOrphans commands fs1.inPath from rfl]
        rw [alGet_pruneOrphans]
        simp [hpres "cachenv" hcn]

/-- Witness for C8: with registration `{ls}` and a directory holding a
stale link and the `cachenv` link, a successful `RefreshLinksForAll`
removes the stale link. -/
theorem refresh_all_prunes_orphans_witness :
    RefreshLinksForAll (fun _ => some ["bin", "ls"]) ["ls"]
        ⟨[("stale", ["t"]), ("cachenv", ["e"])], []⟩ =
      ((RefreshLinksForAll (fun _ => some ["bin", "ls"]) ["ls"]
          ⟨[("stale", ["t"]), ("cachenv", ["e"])], []⟩).1, true) ∧
    alGet (RefreshLinksForAll (fun _ => some ["bin", "ls"]) ["ls"]
        ⟨[("stale", ["t"]), ("cachenv", ["e"])], []⟩).1.inPath "stale" = none :=
  ⟨by decide,
   (refresh_all_prunes_orphans (fun _ => some ["bin", "ls"]) ["ls"]
      ⟨[("stale", ["t"]), ("cachenv", ["e"])], []⟩ _ (by decide)).1 "stale"
      (by decide) (by decide)⟩

/-- C9 as stated is false at a concrete input: with registration
`[bad, good]` where only `bad` is unresolvable, the whole batch aborts with
the error and `good` is never refreshed (its interception link is absent
afterwards). -/
theorem resolution_error_aborts_batch_counterexample :
    (RefreshLinksForAll
        (fun c => if c = "good" then some ["bin", "good"] else none)
        ["bad", "good"] ⟨[], []⟩).2 = false ∧
    alGet (RefreshLinksForAll
        (fun c => if c = "good" then some ["bin", "good"] else none)
        ["bad", "good"] ⟨[], []⟩).1.inPath "good" = none := by
  decide

/-- C9 amended: when the first registered command in the iteration order
cannot be resolved on the real search path, `RefreshLinksForAll` returns
that failure immediately: the failed command's stale links have been
removed, no other command is refreshed, and the orphan-pruning pass is
skipped. -/
theorem resolution_error_aborts_batch (lookPath : String → Option (List String))
    (fs : LinkFS) (c : String) (cs : List String) (h : lookPath c = none) :
    RefreshLinksForAll lookPath (c :: cs) fs =
      (⟨alRemove fs.inPath c, alRemove fs.toReal c⟩, false) := by
  simp only [RefreshLinksForAll, refreshLoop, RefreshLinksFor, h]

/-- Witness for the amended C9 at a concrete two-command registration. -/
theorem resolution_error_aborts_batch_witness :
    RefreshLinksForAll (fun c => if c = "good" then some ["bin", "good"] else none)
        ["bad", "good"] ⟨[("x", ["t"])], []⟩ =
      (⟨alRemove [("x", ["t"])] "bad", alRemove [] "bad"⟩, false) :=
  resolution_error_aborts_batch _ _ "bad" ["good"] (by decide)
